import Mathlib

/-
Verification development for the zone-based detection aggregation pipeline of
src/yolo_runner.py in the CROWD-HUB repository.

The pipeline counts object detections globally per class and per user-defined
spatial zone (rectangles and polygons), accumulates the counts over the frames
of a video, and normalizes heterogeneous zone records read from a JSON file.
The definitions below are a shallow embedding of that code:

  * ClassMap           models a Python dict from class name to count
                       (insertion ordered, first occurrence wins on lookup);
  * Zone / zoneMember  model the zone geometry test of lines 52-65;
  * aggregate          models the counting loop of process_frame_counts
                       (lines 31-68 and 79);
  * annotateZoneTotals models the per-zone totals overlay of lines 70-77;
  * sessionFold        models the per-frame accumulation of lines 220-244;
  * runVideo           models the frame loop with its release calls
                       (lines 206-248);
  * normalizeOne       models the zone-record normalization of lines 134-166.

Coordinates are Int: Python ints are unbounded, and the only narrowing cast in
the pipeline (np.int32 for polygon vertex arrays) is modeled by toInt32.
-/

/-- A per-class count map: models a Python dict from class name (str) to count
(int). The list keeps insertion order; keys are unique by construction, and
lookup reads the first occurrence, which matches dict semantics. -/
abbrev ClassMap := List (String × Nat)

/-- Python expression m.get(k, 0). -/
def getCount : ClassMap → String → Nat
  | [], _ => 0
  | (a, v) :: rest, k => if a = k then v else getCount rest k

/-- Python statement m[k] = m.get(k, 0) + v: the first entry for k is bumped
in place; a missing key is appended at the end, as dict insertion does. -/
def addCount : ClassMap → String → Nat → ClassMap
  | [], k, v => [(k, v)]
  | (a, u) :: rest, k, v =>
      if a = k then (a, u + v) :: rest else (a, u) :: addCount rest k v

/-- Python statement m[k] = m.get(k, 0) + 1 (lines 43, 57, 65). -/
def incr (m : ClassMap) (k : String) : ClassMap := addCount m k 1

/-- Python expression sum(m.values()) (line 79). -/
def sumValues (m : ClassMap) : Nat := (m.map Prod.snd).sum

/-- Sum of the values of all entries of m whose key is k. On maps with unique
keys this coincides with getCount; it is the shape in which the dict merge
loop of the video accumulator is easiest to reason about. -/
def sumOf : ClassMap → String → Nat
  | [], _ => 0
  | (a, v) :: rest, k => (if a = k then v else 0) + sumOf rest k

/-- Python loop: for cls, cnt in src.items(): dst[cls] = dst.get(cls, 0) + cnt
(lines 233-234 and 243-244). -/
def mergeInto (dst : ClassMap) : ClassMap → ClassMap
  | [] => dst
  | (k, v) :: rest => mergeInto (addCount dst k v) rest

theorem getCount_addCount (m : ClassMap) (k : String) (v : Nat) (c : String) :
    getCount (addCount m k v) c = getCount m c + (if k = c then v else 0) := by
  induction m with
  | nil => simp [addCount, getCount]
  | cons p rest ih =>
    obtain ⟨a, u⟩ := p
    by_cases h1 : a = k
    · subst h1
      by_cases h2 : a = c
      · subst h2; simp [addCount, getCount]
      · simp [addCount, getCount, h2]
    · by_cases h2 : a = c
      · subst h2
        have h3 : ¬ k = a := fun h => h1 h.symm
        simp [addCount, getCount, h1, h3]
      · simp [addCount, getCount, h1, h2, ih]

theorem sumOf_addCount (m : ClassMap) (k : String) (v : Nat) (c : String) :
    sumOf (addCount m k v) c = sumOf m c + (if k = c then v else 0) := by
  induction m with
  | nil => simp [addCount, sumOf]
  | cons p rest ih =>
    obtain ⟨a, u⟩ := p
    by_cases h1 : a = k
    · subst h1
      by_cases h2 : a = c
      · subst h2; simp [addCount, sumOf]; omega
      · simp [addCount, sumOf, h2]
    · simp [addCount, sumOf, h1, ih]
      omega

theorem sumValues_addCount (m : ClassMap) (k : String) (v : Nat) :
    sumValues (addCount m k v) = sumValues m + v := by
  induction m with
  | nil => simp [addCount, sumValues]
  | cons p rest ih =>
    obtain ⟨a, u⟩ := p
    by_cases h1 : a = k
    · simp [addCount, h1, sumValues]; omega
    · simp [addCount, h1, sumValues] at *
      omega

theorem getCount_mergeInto (src : ClassMap) :
    ∀ (dst : ClassMap) (c : String),
      getCount (mergeInto dst src) c = getCount dst c + sumOf src c := by
  induction src with
  | nil => intro dst c; simp [mergeInto, sumOf]
  | cons p rest ih =>
    intro dst c
    obtain ⟨k, v⟩ := p
    simp only [mergeInto, sumOf]
    rw [ih, getCount_addCount]
    omega

/-- A point in pixel coordinates. -/
abbrev Pt := Int × Int

/-- Twice the signed area of triangle (a, b, p): the z component of the cross
product (b - a) x (p - a). Zero iff p lies on the line through a and b. -/
def crossZ (a b p : Pt) : Int :=
  (b.1 - a.1) * (p.2 - a.2) - (b.2 - a.2) * (p.1 - a.1)

/-- Whether p lies on the closed segment from a to b (exact integer test). -/
def onSegment (a b p : Pt) : Bool :=
  crossZ a b p == 0 &&
  decide (min a.1 b.1 ≤ p.1) && decide (p.1 ≤ max a.1 b.1) &&
  decide (min a.2 b.2 ≤ p.2) && decide (p.2 ≤ max a.2 b.2)

/-- The edges of a closed polygon: consecutive vertex pairs, last back to
first. -/
def polyEdges : List Pt → List (Pt × Pt)
  | [] => []
  | p :: rest => List.zip (p :: rest) (rest ++ [p])

/-- Whether p lies on the boundary of the polygon with vertex list pts. -/
def onBoundary (pts : List Pt) (p : Pt) : Bool :=
  (polyEdges pts).any (fun e => onSegment e.1 e.2 p)

/-- Whether the edge from a to b crosses the horizontal ray cast rightwards
from p, in the standard half-open crossing-number convention: an upward edge
counts when p is strictly left of it, a downward edge when p is strictly
right of it. -/
def edgeCrosses (a b p : Pt) : Bool :=
  (decide (a.2 ≤ p.2) && decide (p.2 < b.2) && decide (0 < crossZ a b p)) ||
  (decide (b.2 ≤ p.2) && decide (p.2 < a.2) && decide (crossZ a b p < 0))

/-- Whether the crossing number of the rightward ray from p with the polygon
boundary is odd, i.e. whether p is strictly inside under the crossing-number
rule. -/
def crossingOdd (pts : List Pt) (p : Pt) : Bool :=
  ((polyEdges pts).countP (fun e => edgeCrosses e.1 e.2 p)) % 2 == 1

/-- Modelled from the spec: cv2.pointPolygonTest(pts, p, False) is an external
OpenCV primitive whose code is not part of this repository. The spec describes
the polygon membership it induces as the standard crossing-number
(ray-casting) point-in-polygon test with boundary points treated as members.
Following the OpenCV contract, the result is 0 for a point on the boundary,
+1 for a point strictly inside (odd crossing number), and -1 otherwise. -/
def pointPolygonTest (pts : List Pt) (p : Pt) : Int :=
  if onBoundary pts p then 0 else if crossingOdd pts p then 1 else -1

/-- One detection reported by the detector for a frame: class label (the
model.names lookup of box.cls, line 41-42) and bounding box corners
(map(int, box.xyxy[0]), line 44). The detector itself is an external
collaborator; the pipeline depends only on this data. -/
structure Detection where
  cls : String
  x1 : Int
  y1 : Int
  x2 : Int
  y2 : Int
deriving DecidableEq, Repr

/-- Line 45: cx, cy = int((x1 + x2) / 2), int((y1 + y2) / 2). Python / is
float division and int() truncates toward zero, which on integer sums is
truncating division. -/
def center (d : Detection) : Pt :=
  ((d.x1 + d.x2).tdiv 2, (d.y1 + d.y2).tdiv 2)

/-- A normalized zone as consumed by process_frame_counts: either
type rect with coords (x1, y1, x2, y2), or type poly with a vertex array
(lines 17-18). Polygon vertex arrays whose shape is not n x 2 make every
cv2 call on them raise; those raises are swallowed by the per-zone
try/except of lines 53-67 and never produce a count, so only the
well-shaped vertex lists are modeled at this level. -/
inductive Zone where
  | rect (x1 y1 x2 y2 : Int)
  | poly (pts : List Pt)
deriving DecidableEq, Repr

/-- The zone membership test of lines 54-65: strict interior for rects
(min < coordinate < max on both axes), pointPolygonTest >= 0 for polygons. -/
def zoneMember (z : Zone) (p : Pt) : Bool :=
  match z with
  | .rect zx1 zy1 zx2 zy2 =>
      decide (min zx1 zx2 < p.1) && decide (p.1 < max zx1 zx2) &&
      decide (min zy1 zy2 < p.2) && decide (p.2 < max zy1 zy2)
  | .poly pts => decide (0 ≤ pointPolygonTest pts p)

/-- The body of the per-zone loop of lines 52-67 for a single zone slot:
bump the count for cls when the reference point is a member. -/
def stepZone (cls : String) (p : Pt) (m : ClassMap) (z : Zone) : ClassMap :=
  if zoneMember z p then incr m cls else m

/-- The body of the per-detection loop of lines 40-68: bump the global count
for the detection class (line 43), then test every zone slot (lines 52-67).
The drawing calls of lines 46-50 are presentation only and touch no count. -/
def stepDet (zones : List Zone) (acc : List ClassMap × ClassMap)
    (d : Detection) : List ClassMap × ClassMap :=
  (List.zipWith (stepZone d.cls (center d)) acc.1 zones, incr acc.2 d.cls)

/-- The frame counts produced by process_frame_counts (lines 35-36 and
78-80): one class map per zone, the global class map, and
total = sum(class_counts.values()). -/
structure FrameCounts where
  zone_counts : List ClassMap
  class_counts : ClassMap
  total : Nat
deriving DecidableEq, Repr

/-- The counting part of process_frame_counts, lines 35-68 and 79: fold the
per-detection step over the detection list starting from one empty dict per
zone and an empty global dict. -/
def aggregate (dets : List Detection) (zones : List Zone) : FrameCounts :=
  let r := dets.foldl (stepDet zones)
    (zones.map (fun _ => ([] : ClassMap)), ([] : ClassMap))
  ⟨r.1, r.2, sumValues r.2⟩

/-- Lines 70-77, the per-zone totals overlay. Each zone passed to
process_frame_counts is a normalized dict with exactly four keys, so the
statement x1, y1, x2, y2 = z at line 72 binds the four key strings. For a
zone whose count map is nonempty, the loop over zone_counts[i].items() then
calls cv2.putText at position (x1 + 4, y1 + y_off), and adding an int to a
str raises TypeError. No try/except surrounds lines 70-77, so the exception
escapes process_frame_counts. A zone with an empty count map never reaches
the putText call and is passed over without error. Reading zone_counts[i]
would raise IndexError if the count list were shorter than the zone list,
which never happens at the call sites. -/
def annotateZoneTotals : List Zone → List ClassMap → Except String Unit
  | [], _ => .ok ()
  | _ :: _, [] => .error "IndexError"
  | _ :: zs, m :: ms =>
      if m = [] then annotateZoneTotals zs ms else .error "TypeError"

/-- process_frame_counts, lines 31-80: run the counting loop, then the
per-zone totals overlay that can raise. draw_zones_on_frame (line 37) draws
the zone outlines with a per-zone try/except (lines 19-29) and affects no
count, so it contributes nothing observable here. -/
def processFrameCounts (dets : List Detection) (zones : List Zone) :
    Except String FrameCounts :=
  let r := aggregate dets zones
  match annotateZoneTotals zones r.zone_counts with
  | .ok _ => .ok r
  | .error e => .error e

/-- The per-zone count fold for a single zone slot, read off from the loop of
lines 52-67: slot i of zone_counts only ever receives updates decided by
zone i and the running detection, so the loop acts on each slot
independently. -/
def zoneFold (dets : List Detection) (z : Zone) (m0 : ClassMap) : ClassMap :=
  dets.foldl (fun m d => stepZone d.cls (center d) m z) m0

theorem zipWith_left_of_le {α β : Type} :
    ∀ (as : List α) (bs : List β), as.length ≤ bs.length →
      List.zipWith (fun a _ => a) as bs = as := by
  intro as
  induction as with
  | nil => intro bs _; simp
  | cons a rest ih =>
    intro bs h
    cases bs with
    | nil => simp at h
    | cons b bs2 =>
      simp only [List.zipWith_cons_cons, List.cons.injEq, true_and]
      exact ih bs2 (by simpa using h)

theorem zipWith_zipWith_same {α β γ δ : Type}
    (f : γ → β → δ) (g : α → β → γ) :
    ∀ (as : List α) (bs : List β),
      List.zipWith f (List.zipWith g as bs) bs
        = List.zipWith (fun a b => f (g a b) b) as bs := by
  intro as
  induction as with
  | nil => intro bs; simp
  | cons a rest ih =>
    intro bs
    cases bs with
    | nil => simp
    | cons b bs2 => simp [ih bs2]

theorem zipWith_map_left_self {α β γ : Type} (f : γ → α → β) (h : α → γ) :
    ∀ (bs : List α),
      List.zipWith f (bs.map h) bs = bs.map (fun b => f (h b) b) := by
  intro bs
  induction bs with
  | nil => simp
  | cons b rest ih => simp [ih]

theorem foldl_stepDet_snd (zones : List Zone) :
    ∀ (dets : List Detection) (zcs : List ClassMap) (cc : ClassMap),
      (dets.foldl (stepDet zones) (zcs, cc)).2
        = dets.foldl (fun m d => incr m d.cls) cc := by
  intro dets
  induction dets with
  | nil => intro zcs cc; rfl
  | cons d rest ih =>
    intro zcs cc
    simp only [List.foldl_cons, stepDet]
    exact ih _ _

theorem foldl_stepDet_fst (zones : List Zone) :
    ∀ (dets : List Detection) (zcs : List ClassMap) (cc : ClassMap),
      zcs.length ≤ zones.length →
      (dets.foldl (stepDet zones) (zcs, cc)).1
        = List.zipWith (fun m z => zoneFold dets z m) zcs zones := by
  intro dets
  induction dets with
  | nil =>
    intro zcs cc h
    simp only [List.foldl_nil, zoneFold]
    exact (zipWith_left_of_le zcs zones h).symm
  | cons d rest ih =>
    intro zcs cc h
    simp only [List.foldl_cons, stepDet]
    rw [ih _ _ (by rw [List.length_zipWith]; omega)]
    rw [zipWith_zipWith_same]
    rfl

theorem getCount_zoneFold (z : Zone) (c : String) :
    ∀ (dets : List Detection) (m0 : ClassMap),
      getCount (zoneFold dets z m0) c
        = getCount m0 c
          + dets.countP (fun d => decide (d.cls = c) && zoneMember z (center d)) := by
  intro dets
  induction dets with
  | nil => intro m0; simp [zoneFold]
  | cons d rest ih =>
    intro m0
    simp only [zoneFold, List.foldl_cons, List.countP_cons] at *
    rw [ih]
    simp only [stepZone]
    by_cases hz : zoneMember z (center d) <;>
      by_cases hc : d.cls = c <;>
        simp [hz, hc, incr, getCount_addCount] <;> omega

theorem sumOf_zoneFold (z : Zone) (c : String) :
    ∀ (dets : List Detection) (m0 : ClassMap),
      sumOf (zoneFold dets z m0) c
        = sumOf m0 c
          + dets.countP (fun d => decide (d.cls = c) && zoneMember z (center d)) := by
  intro dets
  induction dets with
  | nil => intro m0; simp [zoneFold]
  | cons d rest ih =>
    intro m0
    simp only [zoneFold, List.foldl_cons, List.countP_cons] at *
    rw [ih]
    simp only [stepZone]
    by_cases hz : zoneMember z (center d) <;>
      by_cases hc : d.cls = c <;>
        simp [hz, hc, incr, sumOf_addCount] <;> omega

theorem getCount_globalFold (c : String) :
    ∀ (dets : List Detection) (cc : ClassMap),
      getCount (dets.foldl (fun m d => incr m d.cls) cc) c
        = getCount cc c + dets.countP (fun d => decide (d.cls = c)) := by
  intro dets
  induction dets with
  | nil => intro cc; simp
  | cons d rest ih =>
    intro cc
    simp only [List.foldl_cons, List.countP_cons]
    rw [ih]
    by_cases hc : d.cls = c <;> simp [hc, incr, getCount_addCount] <;> omega

theorem sumOf_globalFold (c : String) :
    ∀ (dets : List Detection) (cc : ClassMap),
      sumOf (dets.foldl (fun m d => incr m d.cls) cc) c
        = sumOf cc c + dets.countP (fun d => decide (d.cls = c)) := by
  intro dets
  induction dets with
  | nil => intro cc; simp
  | cons d rest ih =>
    intro cc
    simp only [List.foldl_cons, List.countP_cons]
    rw [ih]
    by_cases hc : d.cls = c <;> simp [hc, incr, sumOf_addCount] <;> omega

theorem sumValues_globalFold :
    ∀ (dets : List Detection) (cc : ClassMap),
      sumValues (dets.foldl (fun m d => incr m d.cls) cc)
        = sumValues cc + dets.length := by
  intro dets
  induction dets with
  | nil => intro cc; simp
  | cons d rest ih =>
    intro cc
    simp only [List.foldl_cons, List.length_cons]
    rw [ih]
    simp [incr, sumValues_addCount]
    omega

theorem aggregate_class_counts (dets : List Detection) (zones : List Zone) :
    (aggregate dets zones).class_counts
      = dets.foldl (fun m d => incr m d.cls) [] := by
  simp only [aggregate]
  exact foldl_stepDet_snd zones dets _ _

theorem aggregate_zone_counts (dets : List Detection) (zones : List Zone) :
    (aggregate dets zones).zone_counts
      = zones.map (fun z => zoneFold dets z []) := by
  simp only [aggregate]
  rw [foldl_stepDet_fst zones dets _ _ (by simp)]
  exact zipWith_map_left_self _ _ zones

theorem aggregate_total (dets : List Detection) (zones : List Zone) :
    (aggregate dets zones).total = dets.length := by
  simp only [aggregate]
  rw [foldl_stepDet_snd zones dets _ _, sumValues_globalFold dets []]
  simp [sumValues]

theorem getD_map_lt {α β : Type} (f : α → β) (d : β) :
    ∀ (l : List α) (i : Nat) (h : i < l.length),
      (l.map f).getD i d = f (l.get ⟨i, h⟩) := by
  intro l
  induction l with
  | nil => intro i h; simp at h
  | cons a rest ih =>
    intro i h
    cases i with
    | zero => simp
    | succ j =>
      simp only [List.map_cons, List.getD_cons_succ, List.get_cons_succ]
      exact ih j (by simpa using h)

theorem getD_of_le {β : Type} (d : β) :
    ∀ (l : List β) (i : Nat), l.length ≤ i → l.getD i d = d := by
  intro l
  induction l with
  | nil => intro i _; simp
  | cons a rest ih =>
    intro i h
    cases i with
    | zero => simp at h
    | succ j =>
      simp only [List.getD_cons_succ]
      exact ih j (by simpa using h)

theorem countP_and_le {α : Type} (p q : α → Bool) :
    ∀ (l : List α), l.countP (fun a => p a && q a) ≤ l.countP p := by
  intro l
  induction l with
  | nil => simp
  | cons a rest ih =>
    simp only [List.countP_cons]
    by_cases hp : p a <;> by_cases hq : q a <;> simp [hp, hq] <;> omega

/-- C1: for every detection list and every zone list, the global per-class
counts of the frame aggregation count each detection exactly once under its
class label and do not depend on the zone list at all (zero or more zones,
any membership pattern), and the frame total equals the sum of the global
per-class counts, which equals the number of detections. -/
theorem c1_global_counts_zone_free :
    ∀ (dets : List Detection) (zones zones2 : List Zone),
      (aggregate dets zones).class_counts = (aggregate dets zones2).class_counts
      ∧ (∀ c, getCount (aggregate dets zones).class_counts c
            = dets.countP (fun d => decide (d.cls = c)))
      ∧ (aggregate dets zones).total
          = sumValues (aggregate dets zones).class_counts
      ∧ (aggregate dets zones).total = dets.length := by
  intro dets zones zones2
  refine ⟨?_, ?_, rfl, aggregate_total dets zones⟩
  · rw [aggregate_class_counts, aggregate_class_counts]
  · intro c
    rw [aggregate_class_counts]
    simpa [getCount] using getCount_globalFold c dets []

/-- C2: a point is a member of a Rect zone with corners (x1, y1, x2, y2) iff
min x1 x2 < cx < max x1 x2 and min y1 y2 < cy < max y1 y2; in particular a
point exactly on a rect edge, center (10, 5) against rect (0, 0, 10, 10), is
not a member, and a detection with that center contributes no zone count. -/
theorem c2_rect_strict_interior :
    (∀ (x1 y1 x2 y2 cx cy : Int),
        zoneMember (Zone.rect x1 y1 x2 y2) (cx, cy) = true ↔
          (min x1 x2 < cx ∧ cx < max x1 x2 ∧ min y1 y2 < cy ∧ cy < max y1 y2))
    ∧ zoneMember (Zone.rect 0 0 10 10) (10, 5) = false
    ∧ (aggregate [⟨"person", 8, 2, 12, 8⟩] [Zone.rect 0 0 10 10]).zone_counts
        = [[]] := by
  refine ⟨?_, by decide, by decide⟩
  intro x1 y1 x2 y2 cx cy
  simp [zoneMember, and_assoc]

/-- C3: membership of a point in a Polygon zone is decided by the
crossing-number (ray-casting) point-in-polygon test with boundary points
treated as members: the code test pointPolygonTest >= 0 accepts exactly the
boundary points and the points with odd crossing number. A point exactly on a
polygon edge, (5, 0) on the triangle (0,0)-(10,0)-(0,10), is a member and a
detection with that center increments the zone class count. -/
theorem c3_poly_inclusive_boundary :
    (∀ (pts : List Pt) (p : Pt),
        zoneMember (Zone.poly pts) p = (onBoundary pts p || crossingOdd pts p))
    ∧ pointPolygonTest [(0, 0), (10, 0), (0, 10)] (5, 0) = 0
    ∧ (aggregate [⟨"car", 0, -4, 10, 4⟩]
          [Zone.poly [(0, 0), (10, 0), (0, 10)]]).zone_counts
        = [[("car", 1)]] := by
  refine ⟨?_, by decide, by decide⟩
  intro pts p
  by_cases hb : onBoundary pts p
  · simp [zoneMember, pointPolygonTest, hb]
  · by_cases hc : crossingOdd pts p <;>
      simp [zoneMember, pointPolygonTest, hb, hc]

/-- C9: the frame counts (global per-class counts, per-zone per-class counts
and total) are invariant under any permutation of the detection list. -/
theorem c9_permutation_invariant :
    ∀ (dets1 dets2 : List Detection) (zones : List Zone),
      List.Perm dets1 dets2 →
      (∀ c, getCount (aggregate dets1 zones).class_counts c
          = getCount (aggregate dets2 zones).class_counts c)
      ∧ (∀ i c, getCount ((aggregate dets1 zones).zone_counts.getD i []) c
          = getCount ((aggregate dets2 zones).zone_counts.getD i []) c)
      ∧ (aggregate dets1 zones).total = (aggregate dets2 zones).total := by
  intro dets1 dets2 zones hp
  refine ⟨?_, ?_, ?_⟩
  · intro c
    rw [aggregate_class_counts, aggregate_class_counts]
    rw [getCount_globalFold, getCount_globalFold]
    rw [hp.countP_eq]
  · intro i c
    rw [aggregate_zone_counts, aggregate_zone_counts]
    by_cases h : i < zones.length
    · rw [getD_map_lt _ _ _ _ h, getD_map_lt _ _ _ _ h]
      rw [getCount_zoneFold, getCount_zoneFold]
      rw [hp.countP_eq]
    · rw [getD_of_le _ _ _ (by simpa using Nat.le_of_not_lt h),
          getD_of_le _ _ _ (by simpa using Nat.le_of_not_lt h)]
  · rw [aggregate_total, aggregate_total]
    exact hp.length_eq

/-- Witness for c9_permutation_invariant at the concrete swapped pair
[car, person] versus [person, car] with one rect zone. -/
theorem c9_permutation_invariant_witness :
    List.Perm
        [(⟨"car", 0, 0, 2, 2⟩ : Detection), ⟨"person", 4, 4, 6, 6⟩]
        [⟨"person", 4, 4, 6, 6⟩, ⟨"car", 0, 0, 2, 2⟩]
    ∧ (aggregate [(⟨"car", 0, 0, 2, 2⟩ : Detection), ⟨"person", 4, 4, 6, 6⟩]
          [Zone.rect 0 0 10 10]).total
        = (aggregate [(⟨"person", 4, 4, 6, 6⟩ : Detection), ⟨"car", 0, 0, 2, 2⟩]
          [Zone.rect 0 0 10 10]).total := by
  have hp : List.Perm
      [(⟨"car", 0, 0, 2, 2⟩ : Detection), ⟨"person", 4, 4, 6, 6⟩]
      [⟨"person", 4, 4, 6, 6⟩, ⟨"car", 0, 0, 2, 2⟩] :=
    List.Perm.swap (⟨"person", 4, 4, 6, 6⟩ : Detection) ⟨"car", 0, 0, 2, 2⟩ []
  exact ⟨hp, (c9_permutation_invariant _ _ [Zone.rect 0 0 10 10] hp).2.2⟩

/-- C10: in every frame result, every zone count for a class is at most the
global count for that class: a zone increment only happens for a detection
that also incremented the global count of the same class. Stated for every
slot index i, with the empty map as the out-of-range default. -/
theorem c10_zone_count_le_global :
    ∀ (dets : List Detection) (zones : List Zone) (i : Nat) (c : String),
      getCount ((aggregate dets zones).zone_counts.getD i []) c
        ≤ getCount (aggregate dets zones).class_counts c := by
  intro dets zones i c
  rw [aggregate_zone_counts, aggregate_class_counts]
  by_cases h : i < zones.length
  · rw [getD_map_lt _ _ _ _ h, getCount_zoneFold, getCount_globalFold]
    simpa [getCount] using countP_and_le (fun d => decide (d.cls = c))
      (fun d => zoneMember (zones.get ⟨i, h⟩) (center d)) dets
  · rw [getD_of_le _ _ _ (by simpa using Nat.le_of_not_lt h)]
    simp [getCount]

/-- C4: the claim says a rendering failure for one zone is caught and that
zone skipped, so that per-frame processing always completes. The code
violates this: at lines 70-77 each normalized zone dict is unpacked into
x1, y1, x2, y2 (binding its four key strings) and the putText position
x1 + 4 adds an int to a str, raising a TypeError that no try/except catches;
it aborts process_frame_counts for any zone with a nonempty count map, even
a perfectly well-formed one. First conjunct: one car detection whose center
(7, 7) lies in the rect zone (0, 0, 10, 10) makes process_frame_counts
raise. Second conjunct: the same detection with a zone it does not hit
leaves every zone map empty and the frame completes. -/
theorem c4_totals_overlay_raises :
    processFrameCounts [⟨"car", 2, 2, 12, 12⟩] [Zone.rect 0 0 10 10]
        = .error "TypeError"
    ∧ processFrameCounts [⟨"car", 2, 2, 12, 12⟩] [Zone.rect 20 20 30 30]
        = .ok ⟨[[]], [("car", 1)], 1⟩ :=
  ⟨rfl, rfl⟩

/-- The running accumulation state of the video branch, lines 220-221 and
241-242: cumulative per-zone class maps (one per selected zone), the running
total, and the overall class map. The overall map is first bound on the first
frame through a locals() membership test (lines 241-242), which is equivalent
to starting from the empty dict: with zero frames, line 253 substitutes the
empty dict for the never-bound name. -/
structure SessionState where
  cumulative_zone_counts : List ClassMap
  cumulative_total : Nat
  overall_class_counts : ClassMap
deriving DecidableEq, Repr

/-- Lines 231-234: for i in range(len(selected_zones)), merge the frame map
for slot i (or the empty dict when the frame list is shorter, line 232) into
the running map for slot i. -/
def mergeZoneLists : List ClassMap → List ClassMap → List ClassMap
  | [], _ => []
  | m :: rest, fz => mergeInto m (fz.headD []) :: mergeZoneLists rest fz.tail

/-- Lines 228-244: fold one frame result into the session state. Lines
236-238 of the source are no-ops; the overall class map accumulation is
lines 243-244. -/
def sessionFold (st : SessionState) (fr : FrameCounts) : SessionState :=
  { cumulative_zone_counts :=
      mergeZoneLists st.cumulative_zone_counts fr.zone_counts
  , cumulative_total := st.cumulative_total + fr.total
  , overall_class_counts :=
      mergeInto st.overall_class_counts fr.class_counts }

/-- Lines 220-221: the state before the frame loop: one empty dict per
selected zone, zero total, empty overall map. -/
def sessionInit (zones : List Zone) : SessionState :=
  ⟨zones.map (fun _ => []), 0, []⟩

theorem mergeZoneLists_length :
    ∀ (czc fz : List ClassMap), (mergeZoneLists czc fz).length = czc.length := by
  intro czc
  induction czc with
  | nil => intro fz; rfl
  | cons m rest ih => intro fz; simp [mergeZoneLists, ih]

theorem headD_eq_getD (fz : List ClassMap) : fz.headD [] = fz.getD 0 [] := by
  cases fz <;> rfl

theorem tail_getD (fz : List ClassMap) (i : Nat) :
    fz.tail.getD i [] = fz.getD (i + 1) [] := by
  cases fz <;> rfl

theorem mergeZoneLists_getD :
    ∀ (czc fz : List ClassMap) (i : Nat), i < czc.length →
      (mergeZoneLists czc fz).getD i []
        = mergeInto (czc.getD i []) (fz.getD i []) := by
  intro czc
  induction czc with
  | nil => intro fz i h; simp at h
  | cons m rest ih =>
    intro fz i h
    cases i with
    | zero => cases fz <;> simp [mergeZoneLists]
    | succ j =>
      simp only [mergeZoneLists, List.getD_cons_succ]
      rw [ih fz.tail j (by simpa using h), tail_getD]

theorem foldl_sessionFold_total :
    ∀ (frames : List FrameCounts) (st : SessionState),
      (frames.foldl sessionFold st).cumulative_total
        = st.cumulative_total + (frames.map FrameCounts.total).sum := by
  intro frames
  induction frames with
  | nil => intro st; simp
  | cons f rest ih =>
    intro st
    simp only [List.foldl_cons, List.map_cons, List.sum_cons]
    rw [ih]
    simp [sessionFold]
    omega

theorem foldl_sessionFold_overall (c : String) :
    ∀ (frames : List FrameCounts) (st : SessionState),
      getCount (frames.foldl sessionFold st).overall_class_counts c
        = getCount st.overall_class_counts c
          + (frames.map (fun f => sumOf f.class_counts c)).sum := by
  intro frames
  induction frames with
  | nil => intro st; simp
  | cons f rest ih =>
    intro st
    simp only [List.foldl_cons, List.map_cons, List.sum_cons]
    rw [ih]
    simp only [sessionFold]
    rw [getCount_mergeInto]
    omega

theorem foldl_sessionFold_czc_length :
    ∀ (frames : List FrameCounts) (st : SessionState),
      (frames.foldl sessionFold st).cumulative_zone_counts.length
        = st.cumulative_zone_counts.length := by
  intro frames
  induction frames with
  | nil => intro st; rfl
  | cons f rest ih =>
    intro st
    simp only [List.foldl_cons]
    rw [ih]
    simp [sessionFold, mergeZoneLists_length]

theorem foldl_sessionFold_zone (c : String) :
    ∀ (frames : List FrameCounts) (st : SessionState) (i : Nat),
      i < st.cumulative_zone_counts.length →
      getCount ((frames.foldl sessionFold st).cumulative_zone_counts.getD i []) c
        = getCount (st.cumulative_zone_counts.getD i []) c
          + (frames.map (fun f => sumOf (f.zone_counts.getD i []) c)).sum := by
  intro frames
  induction frames with
  | nil => intro st i h; simp
  | cons f rest ih =>
    intro st i h
    simp only [List.foldl_cons, List.map_cons, List.sum_cons]
    rw [ih _ i (by simpa [sessionFold, mergeZoneLists_length] using h)]
    simp only [sessionFold]
    rw [mergeZoneLists_getD _ _ _ h, getCount_mergeInto]
    omega

theorem agg_class_sumOf_eq (ds : List Detection) (zones : List Zone)
    (c : String) :
    sumOf (aggregate ds zones).class_counts c
      = getCount (aggregate ds zones).class_counts c := by
  rw [aggregate_class_counts, sumOf_globalFold, getCount_globalFold]
  simp [sumOf, getCount]

theorem agg_zone_sumOf_eq (ds : List Detection) (zones : List Zone)
    (i : Nat) (c : String) :
    sumOf ((aggregate ds zones).zone_counts.getD i []) c
      = getCount ((aggregate ds zones).zone_counts.getD i []) c := by
  rw [aggregate_zone_counts]
  by_cases h : i < zones.length
  · rw [getD_map_lt _ _ _ _ h, sumOf_zoneFold, getCount_zoneFold]
    simp [sumOf, getCount]
  · rw [getD_of_le _ _ _ (by simpa using Nat.le_of_not_lt h)]
    rfl

theorem getD_map_const_nil (zones : List Zone) (i : Nat) :
    ((zones.map (fun _ => ([] : ClassMap))).getD i []) = [] := by
  by_cases h : i < zones.length
  · rw [getD_map_lt _ _ _ _ h]
  · exact getD_of_le _ _ _ (by simpa using Nat.le_of_not_lt h)

/-- Outcome of the video frame loop of lines 223-248: whether the two release
calls of lines 247-248 executed, and either the final session state or the
exception that escaped per-frame processing. cap.read() returning a False
flag, for end of stream or a frame read failure, takes the same break path
(lines 224-226) and is modeled as the end of the read list. -/
structure VideoOutcome where
  released : Bool
  result : Except String SessionState

/-- The frame loop of lines 223-245 followed by the release calls of lines
247-248: process_frame_counts runs on each read frame; an exception it raises
propagates out of main, skipping both cap.release() and writer.release(),
because no try/finally protects the loop. -/
def runVideoLoop (zones : List Zone) :
    List (List Detection) → SessionState → VideoOutcome
  | [], st => ⟨true, .ok st⟩
  | ds :: rest, st =>
      match processFrameCounts ds zones with
      | .error e => ⟨false, .error e⟩
      | .ok fr => runVideoLoop zones rest (sessionFold st fr)

/-- Lines 206-248: open source and sink, run the frame loop from the initial
session state, then release both handles on loop exit. -/
def runVideo (reads : List (List Detection)) (zones : List Zone) :
    VideoOutcome :=
  runVideoLoop zones reads (sessionInit zones)

/-- Whether an Except value carries a success. -/
def isOkResult : Except String SessionState → Bool
  | .ok _ => true
  | .error _ => false

/-- C8 counterexample: the claim says both video handles are released on
every exit path of the frame loop, including an exception during per-frame
processing. A one-frame video whose single car detection lies inside the
only zone makes process_frame_counts raise (the lines 70-77 TypeError), the
exception escapes the loop, and the release calls of lines 247-248 never
execute. -/
theorem c8_counterexample_release_skipped :
    (runVideo [[⟨"car", 2, 2, 12, 12⟩]] [Zone.rect 0 0 10 10]).released = false
    ∧ (runVideo [[⟨"car", 2, 2, 12, 12⟩]] [Zone.rect 0 0 10 10]).result
        = .error "TypeError" :=
  ⟨rfl, rfl⟩

/-- C8 amended: the handles are released exactly on the exit paths where no
exception escapes per-frame processing: normal end of stream and frame read
failure both break out of the loop and reach the release calls, while an
exception raised while processing a frame propagates uncaught and skips both
release calls. -/
theorem c8_release_iff_no_exception :
    ∀ (reads : List (List Detection)) (zones : List Zone),
      (runVideo reads zones).released
        = isOkResult (runVideo reads zones).result := by
  intro reads zones
  rw [runVideo]
  generalize sessionInit zones = st
  induction reads generalizing st with
  | nil => rfl
  | cons ds rest ih =>
    simp only [runVideoLoop]
    cases hpc : processFrameCounts ds zones with
    | error e => rfl
    | ok fr => exact ih _

/-- C7: the claim says a video run accumulates cumulative counts as key-wise
sums of the per-frame results, its own example being 3 frames each reporting
one car inside zone A, with cumulative zone A result [(car, 3)]. The
accumulation statements of lines 220-244 (sessionFold) do compute exactly
those running sums, but the program never reaches them with a nonempty zone
map: line 227 calls process_frame_counts, whose per-zone totals overlay
(lines 70-77, the line 72 dict-unpacking slip) raises an uncaught TypeError
for any frame with a nonempty zone count map. On the claim's own scenario
the run aborts on the first frame: under the faithful video-loop model, the
3-frame one-car-in-zone-A video ends in the TypeError with no session result
at all, so the cumulative map [(car, 3)] is never produced. -/
theorem c7_video_scenario_aborts :
    (runVideo (List.replicate 3 [⟨"car", 2, 2, 12, 12⟩])
        [Zone.rect 0 0 10 10]).result
      = .error "TypeError" :=
  rfl

/-- A JSON-derived Python value as json.load produces for the zones file
(line 120): int, str, bool, list, or object. Objects are modeled as
association lists with unique keys, which json.load guarantees (duplicate
keys collapse). Floats do not occur in any input considered here and are
not modeled. -/
inductive PyVal where
  | int (n : Int)
  | str (s : String)
  | bool (b : Bool)
  | list (xs : List PyVal)
  | dict (kvs : List (String × PyVal))

/-- Python expression z.get(k) on a dict with entries kvs, as an Option. -/
def dictFind : List (String × PyVal) → String → Option PyVal
  | [], _ => none
  | (a, v) :: rest, k => if a = k then some v else dictFind rest k

/-- Python expression z.get(k, d). -/
def dictGetD (kvs : List (String × PyVal)) (k : String) (d : PyVal) : PyVal :=
  (dictFind kvs k).getD d

/-- Python truthiness bool(v) (applied to the selected field, lines 147 and
154). -/
def pyTruthy : PyVal → Bool
  | .int n => n != 0
  | .str s => !s.isEmpty
  | .bool b => b
  | .list xs => !xs.isEmpty
  | .dict kvs => !kvs.isEmpty

/-- Python int(v): ints pass through, bools map to 0 and 1, decimal strings
parse (a non-numeric string raises ValueError), and a list or dict raises
TypeError. -/
def pyInt : PyVal → Except String Int
  | .int n => .ok n
  | .bool b => .ok (if b then 1 else 0)
  | .str s =>
      match s.toInt? with
      | some n => .ok n
      | none => .error "ValueError"
  | .list _ => .error "TypeError"
  | .dict _ => .error "TypeError"

/-- Wrap an unbounded integer into the np.int32 value range, the cast
performed by np.array(..., dtype=np.int32) at lines 142, 144 and 162. -/
def toInt32 (n : Int) : Int := (n + 2 ^ 31) % 2 ^ 32 - 2 ^ 31

/-- The shape of an integer numpy array built from a JSON list: a flat
vector of scalars, or a rectangular matrix with rows of equal length. -/
inductive NpArr where
  | one (xs : List Int)
  | two (rows : List (List Int))

/-- Python expression pts.shape[0]. -/
def npShape0 : NpArr → Nat
  | .one xs => xs.length
  | .two rows => rows.length

/-- Python expression pts.shape[1]: raises IndexError on a 1-D array
(line 163, caught by the surrounding try of lines 161-166). -/
def npShape1 : NpArr → Except String Nat
  | .one _ => .error "IndexError"
  | .two rows => .ok (rows.headD []).length

/-- A row of scalars for np.array: ints pass through the int32 cast, bools
become 0 or 1; anything else is not a plain scalar row here. -/
def npScalars : List PyVal → Option (List Int)
  | [] => some []
  | .int n :: rest => (npScalars rest).map (fun ns => toInt32 n :: ns)
  | .bool b :: rest =>
      (npScalars rest).map (fun ns => (if b then (1 : Int) else 0) :: ns)
  | _ => none

/-- Rows of scalars for a 2-D np.array: every element must itself be a list
of scalars. -/
def npRows : List PyVal → Option (List (List Int))
  | [] => some []
  | .list xs :: rest =>
      match npScalars xs with
      | none => none
      | some r => (npRows rest).map (fun rs => r :: rs)
  | _ => none

/-- Whether all rows have the length of the first row. -/
def allSameLength (rows : List (List Int)) : Bool :=
  rows.all (fun r => r.length == (rows.headD []).length)

/-- Models the external numpy collaborator np.array(v, dtype=np.int32) on a
JSON list (its code is not part of this repository): a list of numeric
scalars yields a 1-D int32 vector; a list of equal-length scalar lists
yields a 2-D int32 matrix; a ragged or non-numeric nesting raises
ValueError. The call sites (lines 142, 144, 162) only ever pass values that
satisfied an isinstance list check. -/
def npArrayInt : PyVal → Except String NpArr
  | .list xs =>
      match npScalars xs with
      | some ns => .ok (.one ns)
      | none =>
          match npRows xs with
          | some rows =>
              if allSameLength rows then .ok (.two rows)
              else .error "ValueError"
          | none => .error "ValueError"
  | _ => .error "ValueError"

/-- The geometry carried by a normalized zone dict: coords for type rect,
the vertex array for type poly (lines 131-133). -/
inductive NormShape where
  | rect (coords : Int × Int × Int × Int)
  | poly (pts : NpArr)

/-- A normalized zone dict as built at lines 147, 154, 158 and 164: shape,
name (kept as the raw JSON value, as the code keeps z.get of name), and the
bool() of the selected field. -/
structure NormZone where
  shape : NormShape
  name : PyVal
  selected : Bool

/-- The guard of lines 141 and 143: key present, value an instance of
list or tuple, and of length greater than 2. -/
def pointsGuard (kvs : List (String × PyVal)) (k : String) : Option PyVal :=
  match dictFind kvs k with
  | some (.list xs) => if 2 < xs.length then some (.list xs) else none
  | _ => none

/-- One iteration of the normalization loop of lines 135-166 for record z.
Returns ok none when the record is passed over without an append (the silent
drop paths), ok some for an appended normalized zone, and error for an
exception that no handler catches and that therefore aborts main:
  * dict records (lines 136-154): a points or pts list of length > 2 goes to
    np.array with no try around it, so a ragged or non-numeric vertex list
    raises ValueError out of main; otherwise the rect fallback calls int()
    on the x, y, w, h fields (default 0) with no try either;
  * raw sequence records of length >= 4 (lines 155-158) are coerced to a
    rect via map(int, ...) with no try, raising TypeError when an element is
    itself a list (a vertex pair);
  * raw sequence records of length 3 (lines 159-166) go to np.array inside
    a try whose except clause drops the record; an appended polygon also
    requires shape[0] > 2 and shape[1] >= 2;
  * everything else falls through the if/elif chain and is dropped. -/
def normalizeOne (z : PyVal) : Except String (Option NormZone) :=
  match z with
  | .dict kvs =>
      let name := dictGetD kvs "name" (.str "")
      let sel := pyTruthy (dictGetD kvs "selected" (.bool true))
      match
        (match pointsGuard kvs "points" with
         | some v => some v
         | none => pointsGuard kvs "pts") with
      | some v =>
          match npArrayInt v with
          | .error e => .error e
          | .ok arr => .ok (some ⟨.poly arr, name, sel⟩)
      | none =>
          match pyInt (dictGetD kvs "x" (.int 0)) with
          | .error e => .error e
          | .ok x =>
            match pyInt (dictGetD kvs "y" (.int 0)) with
            | .error e => .error e
            | .ok y =>
              match pyInt (dictGetD kvs "w" (.int 0)) with
              | .error e => .error e
              | .ok w =>
                match pyInt (dictGetD kvs "h" (.int 0)) with
                | .error e => .error e
                | .ok h => .ok (some ⟨.rect (x, y, x + w, y + h), name, sel⟩)
  | .list xs =>
      if 4 ≤ xs.length then
        match pyInt (xs.getD 0 (.int 0)) with
        | .error e => .error e
        | .ok a =>
          match pyInt (xs.getD 1 (.int 0)) with
          | .error e => .error e
          | .ok b =>
            match pyInt (xs.getD 2 (.int 0)) with
            | .error e => .error e
            | .ok c =>
              match pyInt (xs.getD 3 (.int 0)) with
              | .error e => .error e
              | .ok d => .ok (some ⟨.rect (a, b, c, d), .str "", true⟩)
      else if 2 < xs.length then
        match npArrayInt (.list xs) with
        | .error _ => .ok none
        | .ok arr =>
            if 2 < npShape0 arr then
              match npShape1 arr with
              | .error _ => .ok none
              | .ok m => if 2 ≤ m then .ok (some ⟨.poly arr, .str "", true⟩)
                         else .ok none
            else .ok none
      else .ok none
  | _ => .ok none

/-- The whole normalization loop of lines 134-166: process the records in
order, appending the normalized zones, skipping the dropped records, and
aborting on the first record whose processing raises. -/
def normalizeZones : List PyVal → Except String (List NormZone)
  | [] => .ok []
  | z :: rest =>
      match normalizeOne z with
      | .error e => .error e
      | .ok none => normalizeZones rest
      | .ok (some nz) =>
          match normalizeZones rest with
          | .error e => .error e
          | .ok l => .ok (nz :: l)

/-- Encode a list of integer points as the JSON value for a raw sequence of
vertex pairs. -/
def encodePts (pts : List Pt) : PyVal :=
  .list (pts.map (fun q => PyVal.list [.int q.1, .int q.2]))

/-- C5: the claim says normalization drops exactly the records that cannot
be coerced to a Rect or a Polygon, silently and without error, so that a
zone file with one malformed entry among N valid ones yields exactly N
active zones and the run completes successfully. The code violates this for
a dict record whose points list is ragged: the np.array call at line 142 is
not inside any try, so it raises ValueError out of main and the run aborts
with no JSON result at all. First conjunct: one valid rect dict followed by
such a record makes normalization raise instead of yielding the one valid
zone. Second conjunct: the silent-drop policy does hold for a record that
matches no branch of the chain (here a plain string), which shows the code
is inconsistent about its own drop policy. -/
theorem c5_normalization_raises_on_ragged_points :
    normalizeZones
        [.dict [("x", .int 0), ("y", .int 0), ("w", .int 10), ("h", .int 10)],
         .dict [("name", .str "bad"),
                ("points", .list [.list [.int 0, .int 0],
                                  .list [.int 1, .int 1],
                                  .list [.int 2]])]]
      = .error "ValueError"
    ∧ normalizeZones
        [.dict [("x", .int 0), ("y", .int 0), ("w", .int 10), ("h", .int 10)],
         .str "oops"]
      = .ok [⟨.rect (0, 0, 10, 10), .str "", true⟩] :=
  ⟨rfl, rfl⟩

/-- C6 counterexample: the claim says every raw sequence of three or more
vertex pairs normalizes to a Polygon with those vertices, a raw sequence
being treated as a Rect only when it is a 4-number coordinate sequence. But
the branch of line 155 tests only len(z) >= 4, so a raw sequence of four or
five vertex pairs is routed to the rect coercion, whose map(int, ...) raises
an uncaught TypeError on the first pair. -/
theorem c6_counterexample_four_plus_points :
    normalizeOne (encodePts [(0, 0), (10, 0), (10, 10), (0, 10), (5, 15)])
        = .error "TypeError"
    ∧ normalizeOne (encodePts [(0, 0), (10, 0), (10, 10), (0, 10)])
        = .error "TypeError" :=
  ⟨rfl, rfl⟩

/-- C6 amended: a raw sequence of vertex pairs normalizes to a Polygon with
those vertices only when it has exactly 3 points; any longer raw sequence of
vertex pairs falls into the len >= 4 rect branch of line 155, where
map(int, ...) raises an uncaught TypeError because the elements are pairs,
not numbers. (A raw 4-number sequence still becomes a Rect: the branch tests
only the length, not the element shape.) -/
theorem c6_raw_point_sequences_amended :
    ∀ (pts : List Pt), 2 < pts.length →
      normalizeOne (encodePts pts)
        = if pts.length = 3 then
            .ok (some ⟨.poly (.two (pts.map
                  (fun q => [toInt32 q.1, toInt32 q.2]))), .str "", true⟩)
          else .error "TypeError" := by
  intro pts h
  match pts, h with
  | a :: b :: c :: rest, _ =>
    cases rest with
    | nil =>
      simp [normalizeOne, encodePts, npArrayInt, npScalars, npRows,
        allSameLength, npShape0, npShape1]
    | cons d rest2 =>
      have hlen : ((a :: b :: c :: d :: rest2).map
          (fun q => PyVal.list [.int q.1, .int q.2])).length
            = rest2.length + 4 := by
        simp
      have hne : ¬ (a :: b :: c :: d :: rest2).length = 3 := by
        simp
      simp [normalizeOne, encodePts, hlen, hne, List.getD, pyInt]

/-- Witness for c6_raw_point_sequences_amended at the concrete 3-point raw
sequence (0,0), (4,0), (0,4). -/
theorem c6_raw_point_sequences_amended_witness :
    2 < List.length [((0 : Int), (0 : Int)), (4, 0), (0, 4)]
    ∧ normalizeOne (encodePts [(0, 0), (4, 0), (0, 4)])
        = if List.length [((0 : Int), (0 : Int)), (4, 0), (0, 4)] = 3 then
            .ok (some ⟨.poly (.two ([((0 : Int), (0 : Int)), (4, 0), (0, 4)].map
                  (fun q => [toInt32 q.1, toInt32 q.2]))), .str "", true⟩)
          else .error "TypeError" :=
  ⟨by decide,
   c6_raw_point_sequences_amended [(0, 0), (4, 0), (0, 4)] (by decide)⟩
